import Mathlib

/-!
Verification of the proxy_converter gateway (proxy_converter.py): credential
parsing, port allocation and binding, DNS fallback resolution, header
filtering, the CONNECT tunnel relay loop, registry persistence, and the
interleaving behaviour of two bind calls.

Strings are modelled as lists of characters. Python regular-expression
matching with lazy groups is modelled by executable backtracking matchers
that follow the priority order of the Python engine: a lazy group first
tries to stop (letting the following pattern element consume the current
character) and only on failure consumes one more character.
-/

namespace ProxyConverter

/-- A nonempty all-digit character list: what the regex fragment composed of
a backslash-d and a plus sign, anchored at the end, accepts. -/
def digitsOnly (l : List Char) : Bool :=
  !l.isEmpty && l.all Char.isDigit

/-- Matcher for the tail of the parse_proxy pattern: a lazy dot-star group
for the server, a literal colon, then digits to the end. Returns the
captured server group and digit group. The lazy group stops as early as
possible: at each position it first tries to read the colon and the final
digit run, and otherwise consumes the character (any character except a
newline, as the dot does). -/
def matchServer : List Char → Option (List Char × List Char)
  | [] => none
  | ch :: rest =>
    if ch = ':' ∧ digitsOnly rest = true then some ([], rest)
    else if ch = '\n' then none
    else (matchServer rest).map fun cd => (ch :: cd.1, cd.2)

/-- Matcher for the parse_proxy pattern from the password group on: a lazy
dot-star group for the password, a literal at-sign, then the server tail.
On failure of the tail at the first at-sign the engine backtracks and the
at-sign is consumed by the lazy group. -/
def matchPass : List Char → Option (List Char × List Char × List Char)
  | [] => none
  | ch :: rest =>
    if ch = '@' then
      match matchServer rest with
      | some cd => some ([], cd.1, cd.2)
      | none => (matchPass rest).map fun r => (ch :: r.1, r.2)
    else if ch = '\n' then none
    else (matchPass rest).map fun r => (ch :: r.1, r.2)

/-- Matcher for the full parse_proxy pattern: a lazy dot-star group for the
username, a literal colon, then the password part. -/
def matchUser : List Char → Option (List Char × List Char × List Char × List Char)
  | [] => none
  | ch :: rest =>
    if ch = ':' then
      match matchPass rest with
      | some r => some ([], r.1, r.2.1, r.2.2)
      | none => (matchUser rest).map fun r => (ch :: r.1, r.2)
    else if ch = '\n' then none
    else (matchUser rest).map fun r => (ch :: r.1, r.2)

/-- Result of ProxyHandler.parse_proxy: username, password, server and the
port converted to an integer. -/
structure ProxyInfo where
  username : List Char
  password : List Char
  server : List Char
  port : Nat
deriving DecidableEq, Repr

/-- Decimal value of a digit list, as int() computes it on a digit string. -/
def digitsToNat (l : List Char) : Nat :=
  l.foldl (fun acc c => 10 * acc + (c.toNat - 48)) 0

/-- ProxyHandler.parse_proxy: match the proxy string against the pattern
anchored lazy-user colon lazy-pass at-sign lazy-server colon digits, and on
success return the four captured fields with the port as an integer. -/
def parse_proxy (s : List Char) : Option ProxyInfo :=
  match matchUser s with
  | none => none
  | some r => some ⟨r.1, r.2.1, r.2.2.1, digitsToNat r.2.2.2⟩

/-- Python whitespace characters, the complement of the regex class
backslash-S. -/
def isPySpace (c : Char) : Bool :=
  c = ' ' || c = '\t' || c = '\n' || c = '\r' || c = '\x0b' || c = '\x0c'

/-- Matchability of the fragment nonspace-plus colon digits-plus anchored at
the end, after at least one nonspace character has been consumed: either
stop the nonspace run at a colon followed by digits to the end, or consume
one more nonspace character. -/
def hostPortCont : List Char → Bool
  | [] => false
  | ch :: rest => (ch = ':' && digitsOnly rest) || (!isPySpace ch && hostPortCont rest)

/-- Matchability of nonspace-plus colon digits-plus anchored at the end:
the nonspace run must consume at least one character. -/
def matchHostPort : List Char → Bool
  | [] => false
  | ch :: rest => !isPySpace ch && hostPortCont rest

/-- Matchability of the bind_proxy validation pattern from the password
group on: lazy dot-star, at-sign, then host and port. Lazy order is
irrelevant to matchability, so this is a plain disjunction of stopping
here and consuming one character. -/
def bindMatchB : List Char → Bool
  | [] => false
  | ch :: rest => (ch = '@' && matchHostPort rest) || (ch ≠ '\n' && bindMatchB rest)

/-- Matchability of the full bind_proxy validation pattern: lazy dot-star,
colon, lazy dot-star, at-sign, nonspace-plus, colon, digits-plus, anchored
at both ends. -/
def bindMatchA : List Char → Bool
  | [] => false
  | ch :: rest => (ch = ':' && bindMatchB rest) || (ch ≠ '\n' && bindMatchA rest)

/-- The credential validation performed at the top of bind_proxy. -/
def bindRegex (s : List Char) : Bool := bindMatchA s

/-- The candidate port set of find_available_port: the range 6700 to 6900
inclusive minus the ports of the existing bindings. -/
def availablePorts (used : List Nat) : List Nat :=
  (List.range' 6700 201).filter fun p => decide (p ∉ used)

/-- The probing loop of find_available_port over the sampled candidate
list: attempt a throwaway socket bind on each candidate in turn (osFree
says whether the operating system accepts the bind on that port) and
return the first candidate that binds, together with the list of ports
actually probed. -/
def probePorts (osFree : Nat → Bool) : List Nat → Option Nat × List Nat
  | [] => (none, [])
  | p :: rest =>
    if osFree p then (some p, [p])
    else
      let r := probePorts osFree rest
      (r.1, p :: r.2)

/-- find_available_port: if the range minus the used ports is empty, fail;
otherwise probe the randomly sampled candidates in order. The sample drawn
by random.sample is a parameter; the theorems that use it carry the
hypothesis that it is drawn from the available set, as the code guarantees.
Returns the allocated port, if any, and the list of ports probed. -/
def find_available_port (used : List Nat) (sample : List Nat)
    (osFree : Nat → Bool) : Option Nat × List Nat :=
  if (availablePorts used).isEmpty then (none, [])
  else probePorts osFree sample

/-- The decimal digit string str(port) writes, modelled as the list of
decimal digits, most significant first. -/
def pyStr (n : Nat) : List Nat := (Nat.digits 10 n).reverse

/-- int() applied to a decimal digit string. -/
def pyInt (l : List Nat) : Nat := Nat.ofDigits 10 l.reverse

/-- save_proxies: the JSON object written to the data file, mapping the
decimal string of each bound port to the record holding its proxy string.
Only the proxy field of each registry entry is persisted; the runtime
server and thread fields are dropped. -/
def save_proxies (registry : List (Nat × List Char)) :
    List (List Nat × List Char) :=
  registry.map fun e => (pyStr e.1, e.2)

/-- load_proxies: reading the data file back yields the JSON object that
was last written (JSON serialization of a string-keyed object of string
fields round-trips through the file). -/
def load_proxies (file : List (List Nat × List Char)) :
    List (List Nat × List Char) := file

/-- restore_proxies: for every entry of the loaded file, convert the key
back to an integer port with int() and attempt to restart a listener on
exactly that port; entries whose listener fails to start are skipped, the
others are re-registered in order. -/
def restore_proxies (file : List (List Nat × List Char))
    (startOk : Nat → Bool) : List (Nat × List Char) :=
  ((load_proxies file).filter fun e => startOk (pyInt e.1)).map
    fun e => (pyInt e.1, e.2)

/-- The observable state bind_proxy can change: the registry of bindings
(port and proxy string of each, in insertion order) and the persisted
data file. -/
structure SysState where
  registry : List (Nat × List Char)
  file : List (List Nat × List Char)
deriving DecidableEq, Repr

/-- Outcome of one bind_proxy call. -/
inductive BindOutcome
  | invalidFormat
  | noPort
  | startError
  | success (port : Nat)
deriving DecidableEq, Repr

/-- One bind_proxy call: its outcome, the state it leaves behind, the
ports its allocator probed, and whether a listener start was attempted. -/
structure BindTrace where
  outcome : BindOutcome
  state : SysState
  probed : List Nat
  listenerTried : Bool
deriving DecidableEq, Repr

/-- bind_proxy: validate the proxy string against the bind pattern and
return at once if it fails; then allocate a port (returning if none is
found); then start the listener, register the binding and persist the
registry. A listener start failure is caught and leaves the registry and
the file untouched. -/
def bind_proxy (st : SysState) (s : List Char) (sample : List Nat)
    (osFree : Nat → Bool) (startOk : Nat → Bool) : BindTrace :=
  if bindRegex s then
    let used := st.registry.map Prod.fst
    let fr := find_available_port used sample osFree
    match fr.1 with
    | none => ⟨.noPort, st, fr.2, false⟩
    | some port =>
      if startOk port then
        let registry := st.registry ++ [(port, s)]
        ⟨.success port, ⟨registry, save_proxies registry⟩, fr.2, true⟩
      else ⟨.startError, st, fr.2, true⟩
  else ⟨.invalidFormat, st, [], false⟩

/-- Outcome of one resolution step as the code observes it: an A-record
answer carrying an address, a completed exchange with no usable A record,
or a raised exception. -/
inductive DnsOutcome
  | answer (ip : List Char)
  | noAnswer
  | exn
deriving DecidableEq, Repr

/-- The network environment one resolution consults: the outcome of the
direct UDP query to 1.1.1.1, of the DNS-over-HTTPS request, of the
dnspython standard resolver (none modelling a raised exception), and of
socket.gethostbyname (none modelling a raised exception). -/
structure DnsEnv where
  direct : DnsOutcome
  doh : DnsOutcome
  std : Option (List Char)
  sys : Option (List Char)
deriving DecidableEq, Repr

/-- The resolution steps, in the order the code can attempt them. -/
inductive DnsStep
  | direct
  | doh
  | std
  | sys
deriving DecidableEq, Repr

/-- resolve_doh: try DNS-over-HTTPS first; a usable type-1 answer is
returned; a completed request without one falls through to the standard
dnspython resolver inside the same try block; an exception anywhere in
that block jumps to the final socket.gethostbyname fallback, whose own
failure returns the hostname unchanged. Returns the result together with
the list of steps attempted. -/
def resolve_doh (env : DnsEnv) (hostname : List Char) :
    List Char × List DnsStep :=
  match env.doh with
  | .answer ip => (ip, [.doh])
  | .noAnswer =>
    match env.std with
    | some ip => (ip, [.doh, .std])
    | none =>
      match env.sys with
      | some ip => (ip, [.doh, .std, .sys])
      | none => (hostname, [.doh, .std, .sys])
  | .exn =>
    match env.sys with
    | some ip => (ip, [.doh, .sys])
    | none => (hostname, [.doh, .sys])

/-- cloudflare_dns_query: send the direct UDP query to 1.1.1.1 first and
return its A-record answer when there is one; on an exception or an
answerless response fall through to resolve_doh. Returns the result
together with the list of steps attempted. -/
def cloudflare_dns_query (env : DnsEnv) (hostname : List Char) :
    List Char × List DnsStep :=
  match env.direct with
  | .answer ip => (ip, [.direct])
  | _ =>
    let r := resolve_doh env hostname
    (r.1, .direct :: r.2)

/-- Lowercased header name, as the header.lower() comparisons compute. -/
def lowerName (l : List Char) : List Char := l.map Char.toLower

/-- The hop-by-hop header names do_method strips from the incoming request
before forwarding it upstream. -/
def requestHopByHop : List (List Char) :=
  [String.toList "connection", String.toList "keep-alive",
   String.toList "proxy-connection", String.toList "upgrade",
   String.toList "transfer-encoding"]

/-- The header names do_method strips from the upstream response before
relaying it to the client. -/
def responseStripped : List (List Char) :=
  [String.toList "connection", String.toList "transfer-encoding"]

/-- The request-side header filter of do_method: keep a header exactly
when its lowercased name is not in the request hop-by-hop set. -/
def filterRequestHeaders (hs : List (List Char × List Char)) :
    List (List Char × List Char) :=
  hs.filter fun h => decide (lowerName h.1 ∉ requestHopByHop)

/-- The response-side header filter of do_method: keep a header exactly
when its lowercased name is neither connection nor transfer-encoding. -/
def filterResponseHeaders (hs : List (List Char × List Char)) :
    List (List Char × List Char) :=
  hs.filter fun h => decide (lowerName h.1 ∉ responseStripped)

/-- The two ends of a CONNECT tunnel. -/
inductive TunnelSide
  | browser
  | target
deriving DecidableEq, Repr

/-- What handling one readable socket yields: relayed data (with the
success of the matching sendall to the other side), a zero-byte read, or
a raised recv error. -/
inductive RecvOutcome
  | data (sendOk : Bool)
  | closed
  | err
deriving DecidableEq, Repr

/-- One return of the select call in the relay loop: the readable sockets
with what handling each yields, in the order the inner loop visits them,
and whether select reported an exceptional condition. An empty readable
list with no exceptional condition is a select timeout. -/
structure SelectEvent where
  readable : List (TunnelSide × RecvOutcome)
  exceptional : Bool
deriving DecidableEq, Repr

/-- How the relay loop ends, or that it is still running. -/
inductive TunnelStatus
  | exceptionalBreak
  | gracefulClose
  | ioError
  | running
deriving DecidableEq, Repr

/-- The inner for-loop of _tunnel_sockets over the readable sockets: a
zero-byte read returns, a recv or sendall error returns, and data is
relayed to the other side and the loop moves on. none means the loop
finished all readable sockets without leaving. -/
def processReadable : List (TunnelSide × RecvOutcome) → Option TunnelStatus
  | [] => none
  | (_, .closed) :: _ => some .gracefulClose
  | (_, .err) :: _ => some .ioError
  | (_, .data ok) :: rest =>
    if ok then processReadable rest else some .ioError

/-- The while-loop of _tunnel_sockets over the sequence of select
returns: an exceptional condition breaks out, an empty readable list (a
select timeout) continues with the next iteration, and otherwise the
readable sockets are processed. When the event sequence is exhausted the
loop is still running. -/
def tunnelLoop : List SelectEvent → TunnelStatus
  | [] => .running
  | ev :: rest =>
    if ev.exceptional then .exceptionalBreak
    else
      match processReadable ev.readable with
      | some st => st
      | none => tunnelLoop rest

/-- The atomic actions of two interleaved bind_proxy calls on the shared
registry: each call first runs its port allocation, reading the shared
registry as it stands, and later registers its binding, appending to the
shared registry. The code takes no lock between the two. -/
inductive BindAct
  | allocA
  | allocB
  | regA
  | regB
deriving DecidableEq, Repr

/-- State of two interleaved bind_proxy calls: the shared registry and,
for each call, the allocator result once its allocation step has run. -/
structure TwoBindState where
  shared : List (Nat × List Char)
  resA : Option (Option Nat)
  resB : Option (Option Nat)
deriving DecidableEq, Repr

/-- One interleaved step: allocation runs find_available_port on the
shared registry as it stands; registration appends the binding when the
allocation succeeded (listener start taken to succeed). -/
def twoBindStep (osFree : Nat → Bool) (sA sB : List Nat)
    (strA strB : List Char) (st : TwoBindState) : BindAct → TwoBindState
  | .allocA =>
    { st with resA := some (find_available_port (st.shared.map Prod.fst) sA osFree).1 }
  | .allocB =>
    { st with resB := some (find_available_port (st.shared.map Prod.fst) sB osFree).1 }
  | .regA =>
    match st.resA with
    | some (some p) => { st with shared := st.shared ++ [(p, strA)] }
    | _ => st
  | .regB =>
    match st.resB with
    | some (some p) => { st with shared := st.shared ++ [(p, strB)] }
    | _ => st

/-- Run a schedule of interleaved actions from a state. -/
def twoBindRun (osFree : Nat → Bool) (sA sB : List Nat)
    (strA strB : List Char) : List BindAct → TwoBindState → TwoBindState
  | [], st => st
  | a :: rest, st =>
    twoBindRun osFree sA sB strA strB rest (twoBindStep osFree sA sB strA strB st a)

/-- Python str.split on the colon separator. -/
def pySplitColon : List Char → List (List Char)
  | [] => [[]]
  | c :: rest =>
    if c = ':' then [] :: pySplitColon rest
    else
      match pySplitColon rest with
      | h :: t => (c :: h) :: t
      | [] => [[c]]

/-- The CONNECT target computation of do_CONNECT: append the default 443
when the request path holds no colon, split on the colon and unpack into
host and port (the unpacking raises unless the split yields exactly two
parts), then convert the port with int(), which needs a digit string. -/
def connectTarget (path : List Char) : Option (List Char × Nat) :=
  let path2 := if ':' ∈ path then path else path ++ String.toList ":443"
  match pySplitColon path2 with
  | [h, p] => if digitsOnly p then some (h, digitsToNat p) else none
  | _ => none

end ProxyConverter

namespace ProxyConverter

example : bindRegex (String.toList "user:pass@host:1080") = true := by decide
example : bindRegex (String.toList ":@h:1") = true := by decide
example : bindRegex (String.toList "nonsense") = false := by decide
example : bindRegex (String.toList "u:p@h:") = false := by decide
example : bindRegex (String.toList "u:p@:55") = false := by decide
example : parse_proxy (String.toList ":@:1") = some ⟨[], [], [], 1⟩ := by decide
example : parse_proxy (String.toList "u:p@h:80") =
    some ⟨[Char.ofNat 117], [Char.ofNat 112], [Char.ofNat 104], 80⟩ := by decide

/-- Membership in the available-port set: in range and not already used. -/
theorem mem_availablePorts {used : List Nat} {p : Nat} :
    p ∈ availablePorts used ↔ (6700 ≤ p ∧ p ≤ 6900) ∧ p ∉ used := by
  unfold availablePorts
  rw [List.mem_filter, List.mem_range'_1]
  simp only [decide_eq_true_eq]
  constructor
  · rintro ⟨⟨h1, h2⟩, h3⟩
    exact ⟨⟨h1, by omega⟩, h3⟩
  · rintro ⟨⟨h1, h2⟩, h3⟩
    exact ⟨⟨h1, by omega⟩, h3⟩

/-- If some sampled candidate is acceptable to the operating system, the
probing loop returns a port, and that port is a sampled candidate that is
acceptable. -/
theorem probePorts_found (osFree : Nat → Bool) (sample : List Nat)
    (h : ∃ p ∈ sample, osFree p = true) :
    ∃ q, (probePorts osFree sample).1 = some q ∧ q ∈ sample ∧ osFree q = true := by
  induction sample with
  | nil => obtain ⟨p, hp, _⟩ := h; cases hp
  | cons a tl ih =>
    by_cases ha : osFree a = true
    · refine ⟨a, ?_, List.mem_cons_self a tl, ha⟩
      simp [probePorts, ha]
    · obtain ⟨p, hp, hfree⟩ := h
      have hptl : p ∈ tl := by
        rcases List.mem_cons.mp hp with h1 | h1
        · subst h1; exact absurd hfree ha
        · exact h1
      obtain ⟨q, h1, h2, h3⟩ := ih ⟨p, hptl, hfree⟩
      refine ⟨q, ?_, List.mem_cons_of_mem a h2, h3⟩
      simp [probePorts, ha, h1]

/-- Whatever the probing loop returns was among the sampled candidates. -/
theorem probePorts_mem (osFree : Nat → Bool) (sample : List Nat) (q : Nat)
    (h : (probePorts osFree sample).1 = some q) : q ∈ sample := by
  induction sample with
  | nil => simp [probePorts] at h
  | cons a tl ih =>
    by_cases ha : osFree a = true
    · simp [probePorts, ha] at h
      subst h; exact List.mem_cons_self a tl
    · simp [probePorts, ha] at h
      exact List.mem_cons_of_mem a (ih h)

/-- C1: for every proxy string of the valid user:pass@host:port form, with
the candidate sample drawn from the available set, at least one sampled
candidate free at the operating system, and the listener start succeeding,
bind_proxy succeeds and the port it returns lies within 6700 to 6900
inclusive and is not a port already held by an existing binding. -/
theorem bind_valid_port_in_range (st : SysState) (s : List Char)
    (sample : List Nat) (osFree startOk : Nat → Bool)
    (hs : bindRegex s = true)
    (hsub : ∀ p ∈ sample, p ∈ availablePorts (st.registry.map Prod.fst))
    (hfree : ∃ p ∈ sample, osFree p = true)
    (hstart : ∀ p, startOk p = true) :
    ∃ port, (bind_proxy st s sample osFree startOk).outcome = .success port ∧
      6700 ≤ port ∧ port ≤ 6900 ∧ port ∉ st.registry.map Prod.fst := by
  obtain ⟨q, hq1, hq2, hq3⟩ := probePorts_found osFree sample hfree
  have hqa := hsub q hq2
  have hrange := mem_availablePorts.mp hqa
  have hnil : availablePorts (st.registry.map Prod.fst) ≠ [] :=
    List.ne_nil_of_mem hqa
  have hne : (availablePorts (st.registry.map Prod.fst)).isEmpty = false := by
    cases hemp : (availablePorts (st.registry.map Prod.fst)).isEmpty
    · rfl
    · exact absurd (by simpa using hemp) hnil
  refine ⟨q, ?_, hrange.1.1, hrange.1.2, hrange.2⟩
  simp [bind_proxy, find_available_port, hs, hne, hq1, hstart q]

/-- Witness for C1 at a concrete input: the empty registry, the valid
string u:p@h:1, the sample consisting of port 6700, and an operating
system that accepts every bind. -/
theorem bind_valid_port_in_range_witness :
    bindRegex (String.toList "u:p@h:1") = true ∧
    ∃ port, (bind_proxy ⟨[], []⟩ (String.toList "u:p@h:1") [6700]
        (fun _ => true) (fun _ => true)).outcome = .success port ∧
      6700 ≤ port ∧ port ≤ 6900 ∧
      port ∉ (SysState.mk [] []).registry.map Prod.fst :=
  ⟨by decide,
   bind_valid_port_in_range ⟨[], []⟩ (String.toList "u:p@h:1") [6700]
     (fun _ => true) (fun _ => true) (by decide) (by decide)
     ⟨6700, by decide, rfl⟩ (fun _ => rfl)⟩

/-- C2: for every malformed proxy string, bind_proxy returns at once with
the invalid-format outcome: the registry and the persisted file are left
unchanged, no port is probed and no listener start is attempted. -/
theorem bind_malformed_no_side_effect (st : SysState) (s : List Char)
    (sample : List Nat) (osFree startOk : Nat → Bool)
    (h : bindRegex s = false) :
    bind_proxy st s sample osFree startOk = ⟨.invalidFormat, st, [], false⟩ := by
  simp [bind_proxy, h]

/-- Witness for C2 at a concrete input: the malformed string nonsense
against a one-binding state. -/
theorem bind_malformed_no_side_effect_witness :
    bindRegex (String.toList "nonsense") = false ∧
    bind_proxy ⟨[(6700, String.toList "u:p@h:1")], save_proxies [(6700, String.toList "u:p@h:1")]⟩
        (String.toList "nonsense") [6701] (fun _ => true) (fun _ => true) =
      ⟨.invalidFormat,
       ⟨[(6700, String.toList "u:p@h:1")], save_proxies [(6700, String.toList "u:p@h:1")]⟩,
       [], false⟩ :=
  ⟨by decide,
   bind_malformed_no_side_effect _ _ [6701] (fun _ => true) (fun _ => true) (by decide)⟩

/-- Converting a port to its decimal string and back is the identity. -/
theorem pyInt_pyStr (n : Nat) : pyInt (pyStr n) = n := by
  unfold pyInt pyStr
  rw [List.reverse_reverse, Nat.ofDigits_digits]

/-- C8: persisting a registry of N bindings with save_proxies and reading
it back with load_proxies and restore_proxies reconstructs the same N
bindings, with identical ports and identical proxy strings, when no
restore step fails. -/
theorem persist_restore_roundtrip (registry : List (Nat × List Char))
    (startOk : Nat → Bool) (h : ∀ p, startOk p = true) :
    restore_proxies (save_proxies registry) startOk = registry ∧
    (restore_proxies (save_proxies registry) startOk).length = registry.length := by
  have main : restore_proxies (save_proxies registry) startOk = registry := by
    unfold restore_proxies save_proxies load_proxies
    rw [List.filter_map]
    have hf : registry.filter
        ((fun e => startOk (pyInt e.1)) ∘ fun e : Nat × List Char => (pyStr e.1, e.2)) =
        registry := by
      apply List.filter_eq_self.mpr
      intro a _
      show startOk (pyInt (pyStr a.1)) = true
      rw [pyInt_pyStr]
      exact h a.1
    rw [hf, List.map_map]
    have hid : ((fun e : List Nat × List Char => (pyInt e.1, e.2)) ∘
        fun e : Nat × List Char => (pyStr e.1, e.2)) = id := by
      funext e
      show (pyInt (pyStr e.1), e.2) = e
      rw [pyInt_pyStr]
    rw [hid, List.map_id]
  exact ⟨main, by rw [main]⟩

/-- Witness for C8 at a concrete input: a one-binding registry and a
restore in which every listener start succeeds. -/
theorem persist_restore_roundtrip_witness :
    (∀ p, (fun _ : Nat => true) p = true) ∧
    (restore_proxies (save_proxies [(6705, String.toList "u:p@h:1")]) (fun _ => true) =
        [(6705, String.toList "u:p@h:1")] ∧
      (restore_proxies (save_proxies [(6705, String.toList "u:p@h:1")]) (fun _ => true)).length =
        [(6705, String.toList "u:p@h:1")].length) :=
  ⟨fun _ => rfl, persist_restore_roundtrip [(6705, String.toList "u:p@h:1")] (fun _ => true) (fun _ => rfl)⟩

/-- C3 counterexample: a string that passes the bind_proxy validation and
is accepted by parse_proxy with an empty username and an empty password;
and a string parse_proxy itself accepts with username, password and
server all empty. -/
theorem parse_empty_fields_counterexample :
    bindRegex (String.toList ":@h:1") = true ∧
    parse_proxy (String.toList ":@h:1") = some ⟨[], [], [Char.ofNat 104], 1⟩ ∧
    parse_proxy (String.toList ":@:1") = some ⟨[], [], [], 1⟩ := by
  refine ⟨by decide, by decide, by decide⟩

/-- The server-tail matcher only ever captures a nonempty all-digit port
group. -/
theorem matchServer_digits : ∀ l c d, matchServer l = some (c, d) →
    digitsOnly d = true := by
  intro l
  induction l with
  | nil => intro c d h; simp [matchServer] at h
  | cons ch rest ih =>
    intro c d h
    unfold matchServer at h
    by_cases h1 : ch = ':' ∧ digitsOnly rest = true
    · rw [if_pos h1] at h
      simp only [Option.some.injEq, Prod.mk.injEq] at h
      obtain ⟨-, h3⟩ := h
      rw [← h3]
      exact h1.2
    · rw [if_neg h1] at h
      by_cases h2 : ch = '\n'
      · rw [if_pos h2] at h; cases h
      · rw [if_neg h2] at h
        rcases Option.map_eq_some'.mp h with ⟨cd, hcd, heq⟩
        simp only [Prod.mk.injEq] at heq
        obtain ⟨-, h3⟩ := heq
        rw [← h3]
        exact ih cd.1 cd.2 hcd

/-- The password matcher only ever captures a nonempty all-digit port
group. -/
theorem matchPass_digits : ∀ l b c d, matchPass l = some (b, c, d) →
    digitsOnly d = true := by
  intro l
  induction l with
  | nil => intro b c d h; simp [matchPass] at h
  | cons ch rest ih =>
    intro b c d h
    unfold matchPass at h
    by_cases h1 : ch = '@'
    · rw [if_pos h1] at h
      cases hm : matchServer rest with
      | some cd =>
        rw [hm] at h
        simp only [Option.some.injEq, Prod.mk.injEq] at h
        obtain ⟨-, -, h3⟩ := h
        rw [← h3]
        exact matchServer_digits rest cd.1 cd.2 hm
      | none =>
        rw [hm] at h
        simp only at h
        rcases Option.map_eq_some'.mp h with ⟨r, hr, heq⟩
        simp only [Prod.mk.injEq] at heq
        obtain ⟨-, h3⟩ := heq
        have h4 : r.2.2 = d := by rw [h3]
        rw [← h4]
        exact ih r.1 r.2.1 r.2.2 hr
    · rw [if_neg h1] at h
      by_cases h2 : ch = '\n'
      · rw [if_pos h2] at h; cases h
      · rw [if_neg h2] at h
        rcases Option.map_eq_some'.mp h with ⟨r, hr, heq⟩
        simp only [Prod.mk.injEq] at heq
        obtain ⟨-, h3⟩ := heq
        have h4 : r.2.2 = d := by rw [h3]
        rw [← h4]
        exact ih r.1 r.2.1 r.2.2 hr

/-- The full credential matcher only ever captures a nonempty all-digit
port group. -/
theorem matchUser_digits : ∀ l a b c d, matchUser l = some (a, b, c, d) →
    digitsOnly d = true := by
  intro l
  induction l with
  | nil => intro a b c d h; simp [matchUser] at h
  | cons ch rest ih =>
    intro a b c d h
    unfold matchUser at h
    by_cases h1 : ch = ':'
    · rw [if_pos h1] at h
      cases hm : matchPass rest with
      | some r =>
        rw [hm] at h
        simp only [Option.some.injEq, Prod.mk.injEq] at h
        obtain ⟨-, -, -, h3⟩ := h
        rw [← h3]
        exact matchPass_digits rest r.1 r.2.1 r.2.2 hm
      | none =>
        rw [hm] at h
        simp only at h
        rcases Option.map_eq_some'.mp h with ⟨r, hr, heq⟩
        simp only [Prod.mk.injEq] at heq
        obtain ⟨-, h3⟩ := heq
        have h4 : r.2.2.2 = d := by rw [h3]
        rw [← h4]
        exact ih r.1 r.2.1 r.2.2.1 r.2.2.2 hr
    · rw [if_neg h1] at h
      by_cases h2 : ch = '\n'
      · rw [if_pos h2] at h; cases h
      · rw [if_neg h2] at h
        rcases Option.map_eq_some'.mp h with ⟨r, hr, heq⟩
        simp only [Prod.mk.injEq] at heq
        obtain ⟨-, h3⟩ := heq
        have h4 : r.2.2.2 = d := by rw [h3]
        rw [← h4]
        exact ih r.1 r.2.1 r.2.2.1 r.2.2.2 hr

/-- C3 amended: for every credential string the parser accepts, the port
field is a nonempty digit string, and parse_proxy returns it converted to
an integer; the username, password and server fields may be empty. -/
theorem parse_accepted_port_digits (s : List Char)
    (a b c d : List Char) (h : matchUser s = some (a, b, c, d)) :
    digitsOnly d = true ∧ parse_proxy s = some ⟨a, b, c, digitsToNat d⟩ := by
  refine ⟨matchUser_digits s a b c d h, ?_⟩
  unfold parse_proxy
  rw [h]

/-- Witness for the amended C3 at a concrete input: the accepted string
made of a colon, an at-sign, a colon and the digit one. -/
theorem parse_accepted_port_digits_witness :
    matchUser (String.toList ":@:1") = some ([], [], [], [Char.ofNat 49]) ∧
    (digitsOnly [Char.ofNat 49] = true ∧
      parse_proxy (String.toList ":@:1") = some ⟨[], [], [], digitsToNat [Char.ofNat 49]⟩) :=
  ⟨by decide, parse_accepted_port_digits (String.toList ":@:1") [] [] [] [Char.ofNat 49] (by decide)⟩

/-- The trace of resolve_doh always begins with the DoH step. -/
theorem resolve_doh_head (env : DnsEnv) (hostname : List Char) :
    (resolve_doh env hostname).2.head? = some DnsStep.doh := by
  obtain ⟨dct, doh, std, sys⟩ := env
  cases doh <;> cases std <;> cases sys <;> rfl

/-- C4: resolution is a total function, and when the direct UDP query,
the DNS-over-HTTPS request, the standard resolver and the system resolver
all fail, it returns the hostname string itself unchanged. -/
theorem resolve_all_fail_returns_hostname (env : DnsEnv) (hostname : List Char)
    (hdir : ∀ ip, env.direct ≠ .answer ip)
    (hdoh : ∀ ip, env.doh ≠ .answer ip)
    (hstd : env.std = none) (hsys : env.sys = none) :
    (cloudflare_dns_query env hostname).1 = hostname := by
  cases hdct : env.direct with
  | answer ip => exact absurd hdct (hdir ip)
  | noAnswer =>
    cases hdh : env.doh with
    | answer ip => exact absurd hdh (hdoh ip)
    | noAnswer => simp [cloudflare_dns_query, resolve_doh, hdct, hdh, hstd, hsys]
    | exn => simp [cloudflare_dns_query, resolve_doh, hdct, hdh, hsys]
  | exn =>
    cases hdh : env.doh with
    | answer ip => exact absurd hdh (hdoh ip)
    | noAnswer => simp [cloudflare_dns_query, resolve_doh, hdct, hdh, hstd, hsys]
    | exn => simp [cloudflare_dns_query, resolve_doh, hdct, hdh, hsys]

/-- Witness for C4 at a concrete input: every step raising, on the name
example.com. -/
theorem resolve_all_fail_returns_hostname_witness :
    (∀ ip, (DnsEnv.mk .exn .exn none none).direct ≠ .answer ip) ∧
    (∀ ip, (DnsEnv.mk .exn .exn none none).doh ≠ .answer ip) ∧
    (cloudflare_dns_query ⟨.exn, .exn, none, none⟩ (String.toList "example.com")).1 =
      String.toList "example.com" :=
  ⟨fun _ h => DnsOutcome.noConfusion h, fun _ h => DnsOutcome.noConfusion h,
   resolve_all_fail_returns_hostname ⟨.exn, .exn, none, none⟩ (String.toList "example.com")
     (fun _ h => DnsOutcome.noConfusion h) (fun _ h => DnsOutcome.noConfusion h) rfl rfl⟩

/-- C5: the trace of attempted resolution steps always begins with the
direct UDP query, and the DNS-over-HTTPS step is the very next step
attempted exactly when the direct query raised or returned no usable
A-record answer. -/
theorem resolve_fallback_order (env : DnsEnv) (hostname : List Char) :
    (cloudflare_dns_query env hostname).2.head? = some DnsStep.direct ∧
    ((cloudflare_dns_query env hostname).2.tail.head? = some DnsStep.doh ↔
      ∀ ip, env.direct ≠ .answer ip) := by
  obtain ⟨dct, doh, std, sys⟩ := env
  cases dct with
  | answer ip =>
    refine ⟨rfl, ?_⟩
    constructor
    · intro h
      simp [cloudflare_dns_query] at h
    · intro h
      exact absurd rfl (h ip)
  | noAnswer =>
    refine ⟨rfl, ?_⟩
    constructor
    · intro _ ip hx
      exact DnsOutcome.noConfusion hx
    · intro _
      exact resolve_doh_head ⟨.noAnswer, doh, std, sys⟩ hostname
  | exn =>
    refine ⟨rfl, ?_⟩
    constructor
    · intro _ ip hx
      exact DnsOutcome.noConfusion hx
    · intro _
      exact resolve_doh_head ⟨.exn, doh, std, sys⟩ hostname

/-- C6 counterexample: a keep-alive header is stripped from the outgoing
request but survives the response filter, so the two filters disagree. -/
theorem response_strip_counterexample :
    filterRequestHeaders [(String.toList "Keep-Alive", String.toList "timeout=5")] = [] ∧
    filterResponseHeaders [(String.toList "Keep-Alive", String.toList "timeout=5")] =
      [(String.toList "Keep-Alive", String.toList "timeout=5")] := by
  constructor <;> decide

/-- C6 amended: the response filter strips only connection and
transfer-encoding; a header whose lowercased name is keep-alive,
proxy-connection or upgrade is stripped from the outgoing request yet
kept in the relayed response. -/
theorem response_strip_smaller (hs : List (List Char × List Char))
    (h : List Char × List Char) (hmem : h ∈ hs)
    (hname : lowerName h.1 ∈ [String.toList "keep-alive",
      String.toList "proxy-connection", String.toList "upgrade"]) :
    h ∉ filterRequestHeaders hs ∧ h ∈ filterResponseHeaders hs := by
  simp only [List.mem_cons, List.not_mem_nil, or_false] at hname
  have hreq : lowerName h.1 ∈ requestHopByHop := by
    rcases hname with h1 | h1 | h1 <;> rw [h1] <;> decide
  have hresp : lowerName h.1 ∉ responseStripped := by
    rcases hname with h1 | h1 | h1 <;> rw [h1] <;> decide
  constructor
  · intro hin
    have h2 := (List.mem_filter.mp hin).2
    simp only [decide_eq_true_eq] at h2
    exact h2 hreq
  · exact List.mem_filter.mpr ⟨hmem, by simp only [decide_eq_true_eq]; exact hresp⟩

/-- Witness for the amended C6 at a concrete input: a single keep-alive
response header. -/
theorem response_strip_smaller_witness :
    (String.toList "Keep-Alive", String.toList "timeout=5") ∈
      [(String.toList "Keep-Alive", String.toList "timeout=5")] ∧
    lowerName (String.toList "Keep-Alive") ∈ [String.toList "keep-alive",
      String.toList "proxy-connection", String.toList "upgrade"] ∧
    ((String.toList "Keep-Alive", String.toList "timeout=5") ∉
        filterRequestHeaders [(String.toList "Keep-Alive", String.toList "timeout=5")] ∧
      (String.toList "Keep-Alive", String.toList "timeout=5") ∈
        filterResponseHeaders [(String.toList "Keep-Alive", String.toList "timeout=5")]) :=
  ⟨by decide, by decide,
   response_strip_smaller [(String.toList "Keep-Alive", String.toList "timeout=5")]
     (String.toList "Keep-Alive", String.toList "timeout=5") (by decide) (by decide)⟩

/-- C7 counterexample: five consecutive select timeouts (no socket
readable for 30 seconds each time) leave the relay loop still running;
the idle timeout does not terminate it. -/
theorem tunnel_idle_timeout_counterexample :
    tunnelLoop (List.replicate 5 ⟨[], false⟩) = TunnelStatus.running := by decide

/-- The inner readable loop never reports that the relay is running: when
it leaves, it leaves with a graceful close or an input-output error. -/
theorem processReadable_ne_running : ∀ l st, processReadable l = some st →
    st ≠ TunnelStatus.running := by
  intro l
  induction l with
  | nil => intro st h; simp [processReadable] at h
  | cons p rest ih =>
    intro st h
    obtain ⟨side, out⟩ := p
    cases out with
    | data ok =>
      cases ok with
      | true =>
        simp only [processReadable, if_true] at h
        exact ih st h
      | false =>
        simp only [processReadable, Bool.false_eq_true, if_false] at h
        injection h with h2
        rw [← h2]
        decide
    | closed =>
      simp only [processReadable] at h
      injection h with h2
      rw [← h2]
      decide
    | err =>
      simp only [processReadable] at h
      injection h with h2
      rw [← h2]
      decide

/-- The relay loop is still running exactly when every select return so
far was a no-op: not exceptional, and every readable socket carried data
that was relayed without error. -/
theorem tunnelLoop_running_iff (evs : List SelectEvent) :
    tunnelLoop evs = TunnelStatus.running ↔
      ∀ ev ∈ evs, ev.exceptional = false ∧ processReadable ev.readable = none := by
  induction evs with
  | nil => simp [tunnelLoop]
  | cons ev rest ih =>
    unfold tunnelLoop
    by_cases hex : ev.exceptional = true
    · simp [hex]
    · have hex2 : ev.exceptional = false := by
        revert hex; cases ev.exceptional <;> simp
      cases hpr : processReadable ev.readable with
      | some st =>
        simp only [hex2, Bool.false_eq_true, if_false, hpr]
        constructor
        · intro h
          exact absurd h (processReadable_ne_running ev.readable st hpr)
        · intro h
          have := (h ev (List.mem_cons_self ev rest)).2
          rw [hpr] at this
          cases this
      | none =>
        simp only [hex2, Bool.false_eq_true, if_false, hpr, ih]
        constructor
        · intro h e he
          rcases List.mem_cons.mp he with h1 | h1
          · rw [h1]; exact ⟨hex2, hpr⟩
          · exact h e h1
        · intro h e he
          exact h e (List.mem_cons_of_mem ev he)

/-- C7 amended: the relay loop terminates when either side returns zero
bytes, when a recv or sendall raises, or when select reports an
exceptional condition; a select timeout with no readable socket does not
terminate it, the iteration is skipped and the loop keeps waiting; and
the loop is still running exactly when nothing but no-op iterations have
occurred. -/
theorem tunnel_termination (evs : List SelectEvent) (s : TunnelSide)
    (tl : List (TunnelSide × RecvOutcome)) :
    tunnelLoop (⟨[], false⟩ :: evs) = tunnelLoop evs ∧
    tunnelLoop (⟨(s, .closed) :: tl, false⟩ :: evs) = TunnelStatus.gracefulClose ∧
    tunnelLoop (⟨(s, .err) :: tl, false⟩ :: evs) = TunnelStatus.ioError ∧
    (∀ rd, tunnelLoop (⟨rd, true⟩ :: evs) = TunnelStatus.exceptionalBreak) ∧
    (tunnelLoop evs = TunnelStatus.running ↔
      ∀ ev ∈ evs, ev.exceptional = false ∧ processReadable ev.readable = none) :=
  ⟨rfl, rfl, rfl, fun _ => rfl, tunnelLoop_running_iff evs⟩

/-- C9 counterexample: the code takes no lock, so under the interleaving
in which both calls run their port allocation before either registers,
the allocator hands the same port to both: from the empty registry, with
every port free at the operating system and the sample 6700 drawn for
both, both calls are handed port 6700. -/
theorem concurrent_bind_same_port :
    (twoBindRun (fun _ => true) [6700] [6700] (String.toList "a:b@c:1")
        (String.toList "d:e@f:2") [.allocA, .allocB]
        ⟨[], none, none⟩).resA = some (some 6700) ∧
    (twoBindRun (fun _ => true) [6700] [6700] (String.toList "a:b@c:1")
        (String.toList "d:e@f:2") [.allocA, .allocB]
        ⟨[], none, none⟩).resB = some (some 6700) := by
  constructor <;> decide

/-- C9 amended: when the probe-and-register of the first call completes
before the probe of the second begins, and the second sample is drawn
from the ports available after the first registration, the two calls
receive distinct ports. -/
theorem serialized_bind_distinct_ports (init : List (Nat × List Char))
    (osFree : Nat → Bool) (sA sB : List Nat) (strA strB : List Char)
    (a b : Nat)
    (hA : (find_available_port (init.map Prod.fst) sA osFree).1 = some a)
    (hB : (find_available_port ((init ++ [(a, strA)]).map Prod.fst) sB osFree).1 = some b)
    (hsub : ∀ p ∈ sB, p ∈ availablePorts ((init ++ [(a, strA)]).map Prod.fst)) :
    (twoBindRun osFree sA sB strA strB [.allocA, .regA, .allocB, .regB]
        ⟨init, none, none⟩).resA = some (some a) ∧
    (twoBindRun osFree sA sB strA strB [.allocA, .regA, .allocB, .regB]
        ⟨init, none, none⟩).resB = some (some b) ∧
    a ≠ b := by
  have hb_mem : b ∈ sB := by
    by_cases hemp : (availablePorts ((init ++ [(a, strA)]).map Prod.fst)).isEmpty = true
    · unfold find_available_port at hB
      rw [if_pos hemp] at hB
      simp at hB
    · unfold find_available_port at hB
      rw [if_neg hemp] at hB
      exact probePorts_mem osFree sB b hB
  have hav := hsub b hb_mem
  have hnot := (mem_availablePorts.mp hav).2
  have hane : a ≠ b := by
    intro heq
    apply hnot
    rw [← heq]
    simp
  have hB2 : (find_available_port (List.map Prod.fst init ++ [a]) sB osFree).1 = some b := by
    simpa using hB
  refine ⟨?_, ?_, hane⟩
  · simp [twoBindRun, twoBindStep, hA, hB2]
  · simp [twoBindRun, twoBindStep, hA, hB2]

/-- Witness for the amended C9 at a concrete input: the empty registry,
samples 6700 then 6701, every port free at the operating system. -/
theorem serialized_bind_distinct_ports_witness :
    (find_available_port (([] : List (Nat × List Char)).map Prod.fst) [6700]
        (fun _ => true)).1 = some 6700 ∧
    (find_available_port ((([] : List (Nat × List Char)) ++
        [(6700, String.toList "a:b@c:1")]).map Prod.fst) [6701]
        (fun _ => true)).1 = some 6701 ∧
    (∀ p ∈ [6701], p ∈ availablePorts ((([] : List (Nat × List Char)) ++
        [(6700, String.toList "a:b@c:1")]).map Prod.fst)) ∧
    ((twoBindRun (fun _ => true) [6700] [6701] (String.toList "a:b@c:1")
        (String.toList "d:e@f:2") [.allocA, .regA, .allocB, .regB]
        ⟨[], none, none⟩).resA = some (some 6700) ∧
      (twoBindRun (fun _ => true) [6700] [6701] (String.toList "a:b@c:1")
        (String.toList "d:e@f:2") [.allocA, .regA, .allocB, .regB]
        ⟨[], none, none⟩).resB = some (some 6701) ∧
      6700 ≠ 6701) :=
  ⟨by decide, by decide, by decide,
   serialized_bind_distinct_ports [] (fun _ => true) [6700] [6701]
     (String.toList "a:b@c:1") (String.toList "d:e@f:2") 6700 6701
     (by decide) (by decide) (by decide)⟩

/-- Splitting a colon-free prefix, a colon and a tail splits off exactly
the prefix. -/
theorem pySplitColon_append (l m : List Char) (hl : ':' ∉ l) :
    pySplitColon (l ++ ':' :: m) = l :: pySplitColon m := by
  induction l with
  | nil => simp [pySplitColon]
  | cons c rest ih =>
    have h1 : ¬ (c = ':') := by
      intro hc
      exact hl (by rw [hc]; exact List.mem_cons_self ':' rest)
    have h2 : ':' ∉ rest := fun hm => hl (List.mem_cons_of_mem c hm)
    simp only [List.cons_append, pySplitColon, List.append_eq]
    rw [if_neg h1, ih h2]

/-- C10: for every CONNECT request path holding no colon, the target port
defaults to 443 and the host is the whole path. -/
theorem connect_no_colon_default_443 (path : List Char) (h : ':' ∉ path) :
    connectTarget path = some (path, 443) := by
  have hsplit : pySplitColon (path ++ String.toList ":443") = [path, String.toList "443"] := by
    have e : String.toList ":443" = ':' :: String.toList "443" := rfl
    rw [e, pySplitColon_append path (String.toList "443") h]
    rw [show pySplitColon (String.toList "443") = [String.toList "443"] from by decide]
  simp only [connectTarget, if_neg h]
  rw [hsplit]
  simp
  decide

/-- Witness for C10 at a concrete input: the path example.com. -/
theorem connect_no_colon_default_443_witness :
    ':' ∉ String.toList "example.com" ∧
    connectTarget (String.toList "example.com") =
      some (String.toList "example.com", 443) :=
  ⟨by decide, connect_no_colon_default_443 (String.toList "example.com") (by decide)⟩

end ProxyConverter
